import Mathlib

/-!
Verification development for the batch identifier-ingestion pipeline of the
`ShopifyCasesReceived` page (`src/pages/ShopifyCasesReceived.js`).

The React component is embedded shallowly:

* JavaScript strings are Lean `String`s; the string operations the page uses
  (`split("\n")`, `trim()`, the regex test `^\d+$`, truthiness `line &&`,
  `a || b` defaulting) are given structural, executable definitions mirroring
  their JavaScript semantics.
* The remote API (`apiPost` to `/cases/receive-case` and
  `/shopify/fetch-order`) is an oracle (`LookupClient`) indexed by the
  position of the identifier in the batch, returning either a parsed
  response object or a thrown error (`Except`).
* Each React `setX(...)` call and each remote invocation performed by
  `handleProcess` is reified as one `UiAction`; the component state evolves by
  folding `applyAction` over the emitted action list, and "points in time"
  are the intermediate states of that fold (`statesAfter`).
-/

/-- JavaScript `a || d` for an optional string `a` (the empty string is the
only falsy string value that occurs here). -/
def jsOrStr : Option String → String → String
  | some v, d => if v = "" then d else v
  | none, d => d

/-- JavaScript truthiness of a string (`line &&` in the parser filter). -/
def jsTruthy (s : String) : Bool := s != ""

/-- The regex test `/^\d+$/.test(line)`: one or more decimal digits and
nothing else. -/
def regexDigits (s : String) : Bool := !s.data.isEmpty && s.data.all Char.isDigit

/-- JavaScript `String.prototype.split("\n")` on the character list: splits
at every newline character, keeping empty segments (so `""` yields `[[]]`). -/
def splitCharList : List Char → List (List Char)
  | [] => [[]]
  | c :: cs =>
    if c = '\n' then [] :: splitCharList cs
    else
      match splitCharList cs with
      | [] => [[c]]
      | l :: ls => (c :: l) :: ls

/-- JavaScript `input.split("\n")` as a list of Lean strings. -/
def jsSplitLines (s : String) : List String := (splitCharList s.data).map List.asString

/-- JavaScript `line.trim()`: drop whitespace from both ends. -/
def jsTrim (s : String) : String :=
  (((s.data.dropWhile Char.isWhitespace).reverse.dropWhile Char.isWhitespace).reverse).asString

/-- `parseCaseIds` from the page: split on newlines, trim each line, keep the
lines that are non-empty and match `^\d+$`, trim again. -/
def parseCaseIds (input : String) : List String :=
  (((jsSplitLines input).map jsTrim).filter
      (fun line => jsTruthy line && regexDigits line)).map jsTrim

/-- The record snapshot carried by a database hit
(`caseData.caseData` in the response of `/cases/receive-case`). -/
structure CaseRecord where
  statusStreamlineOptions : Option String
  caseDateReceived : Option String
  isRushOrder : Option Bool
deriving DecidableEq, Repr

/-- The `data` field of a `/cases/receive-case` response:
`{ exists, caseData }`. -/
structure DbData where
  caseExists : Bool
  caseData : Option CaseRecord
deriving DecidableEq, Repr

/-- A parsed `/cases/receive-case` response: `{ status, data }`. -/
structure DbResponse where
  status : String
  data : DbData
deriving DecidableEq, Repr

/-- The `data` field of a `/shopify/fetch-order` response. The order payload
is kept opaque as a string. -/
structure ShopifyData where
  orderData : String
deriving DecidableEq, Repr

/-- A parsed `/shopify/fetch-order` response:
`{ status, data, message?, code? }`. -/
structure ShopifyResponse where
  status : String
  data : ShopifyData
  message : Option String
  code : Option String
deriving DecidableEq, Repr

/-- A thrown JavaScript error as consumed by the page: `err.message` and
`err.data?.message` (both possibly absent). -/
structure JsError where
  message : Option String
  dataMessage : Option String
deriving DecidableEq, Repr

/-- The remote API oracle: responses of the two `apiPost` endpoints for the
identifier processed at a given batch position. A `.error` value models a
thrown (rejected) call. -/
structure LookupClient where
  checkExisting : Nat → String → Except JsError DbResponse
  fetchOrder : Nat → String → Except JsError ShopifyResponse

/-- An element of the `existingCases` bucket. -/
structure ExistingEntry where
  caseId : String
  caseData : Option CaseRecord
  caseStatus : String
  receivedDate : String
  isRush : Bool
deriving DecidableEq, Repr

/-- An element of the `processingCases` bucket. -/
structure ProcessingEntry where
  caseId : String
  status : String
deriving DecidableEq, Repr

/-- An element of the `invalidCases` bucket. `errorCode = none` models the
thrown-error path, where the object is built without an `errorCode` key. -/
structure InvalidEntry where
  caseId : String
  reason : String
  errorCode : Option String
  orderData : Option String
deriving DecidableEq, Repr

/-- An element of the `successfulCases` bucket. -/
structure SuccessfulEntry where
  caseId : String
  orderData : String
  status : String
deriving DecidableEq, Repr

/-- The React component state of `ShopifyCasesReceived`. -/
structure ComponentState where
  caseInput : String
  processingCases : List ProcessingEntry
  existingCases : List ExistingEntry
  invalidCases : List InvalidEntry
  successfulCases : List SuccessfulEntry
  loading : Bool
  error : Option String
deriving DecidableEq, Repr

/-- The fresh component state (all `useState` initial values). -/
def initialState : ComponentState :=
  { caseInput := ""
    processingCases := []
    existingCases := []
    invalidCases := []
    successfulCases := []
    loading := false
    error := none }

/-- One observable step of `handleProcess`: a React state update or a remote
invocation. Remote invocations are recorded (with the batch position) so that
call ordering and call absence can be stated. -/
inductive UiAction where
  | setLoading (b : Bool)
  | setError (e : Option String)
  | clearProcessing
  | clearExisting
  | clearInvalid
  | clearSuccessful
  | addProcessing (p : ProcessingEntry)
  | removeProcessing (caseId : String)
  | addExisting (e : ExistingEntry)
  | addInvalid (e : InvalidEntry)
  | addSuccessful (e : SuccessfulEntry)
  | callPrimary (i : Nat) (caseId : String)
  | callShopify (i : Nat) (caseId : String)
deriving DecidableEq, Repr

/-- Effect of one action on the component state. Remote invocations do not
change the state. `removeProcessing` is the source's
`prev.filter(item => item.caseId !== caseId)`. -/
def applyAction (s : ComponentState) : UiAction → ComponentState
  | .setLoading b => { s with loading := b }
  | .setError e => { s with error := e }
  | .clearProcessing => { s with processingCases := [] }
  | .clearExisting => { s with existingCases := [] }
  | .clearInvalid => { s with invalidCases := [] }
  | .clearSuccessful => { s with successfulCases := [] }
  | .addProcessing p => { s with processingCases := s.processingCases ++ [p] }
  | .removeProcessing caseId =>
      { s with processingCases := s.processingCases.filter (fun item => item.caseId != caseId) }
  | .addExisting e => { s with existingCases := s.existingCases ++ [e] }
  | .addInvalid e => { s with invalidCases := s.invalidCases ++ [e] }
  | .addSuccessful e => { s with successfulCases := s.successfulCases ++ [e] }
  | .callPrimary _ _ => s
  | .callShopify _ _ => s

/-- The `existingCases` entry built when the database reports the case
exists, with the source's `|| "Unknown"`, `|| "N/A"`, `|| false` defaults. -/
def existingEntryOf (caseId : String) (d : DbData) : ExistingEntry :=
  { caseId := caseId
    caseData := d.caseData
    caseStatus := jsOrStr (d.caseData.bind (·.statusStreamlineOptions)) "Unknown"
    receivedDate := jsOrStr (d.caseData.bind (·.caseDateReceived)) "N/A"
    isRush := (d.caseData.bind (·.isRushOrder)).getD false }

/-- The `invalidCases` entry built from a non-success Shopify response. -/
def shopifyFailureEntry (caseId : String) (r : ShopifyResponse) : InvalidEntry :=
  { caseId := caseId
    reason := jsOrStr r.message "Shopify lookup failed"
    errorCode := some (jsOrStr r.code "UNKNOWN_ERROR")
    orderData := none }

/-- The `invalidCases` entry built in the Shopify `catch` block
(`shopifyErr.message || shopifyErr.data?.message || "Order not found in Shopify"`,
no `errorCode` key). -/
def shopifyThrowEntry (caseId : String) (e : JsError) : InvalidEntry :=
  { caseId := caseId
    reason := jsOrStr e.message (jsOrStr e.dataMessage "Order not found in Shopify")
    errorCode := none
    orderData := none }

/-- The batch-level error message set by the per-identifier `catch` block:
`` `Error processing case ${caseId}: ${err.message}` ``. -/
def primaryErrorMessage (caseId : String) (e : JsError) : String :=
  "Error processing case " ++ caseId ++ ": " ++ e.message.getD "undefined"

/-- The loop body of `handleProcess` for the identifier at batch position
`i`: the ordered list of remote invocations and state updates it performs. -/
def processCaseActions (client : LookupClient) (i : Nat) (caseId : String) : List UiAction :=
  UiAction.callPrimary i caseId ::
    match client.checkExisting i caseId with
    | .error e => [UiAction.setError (some (primaryErrorMessage caseId e))]
    | .ok resp =>
      if resp.status = "success" then
        if resp.data.caseExists then
          [UiAction.addExisting (existingEntryOf caseId resp.data)]
        else
          UiAction.addProcessing { caseId := caseId, status := "Pending Shopify Lookup" } ::
          UiAction.callShopify i caseId ::
            match client.fetchOrder i caseId with
            | .ok sresp =>
              if sresp.status = "success" then
                [UiAction.removeProcessing caseId,
                 UiAction.addSuccessful
                   { caseId := caseId
                     orderData := sresp.data.orderData
                     status := "Successfully Processed" }]
              else
                [UiAction.removeProcessing caseId,
                 UiAction.addInvalid (shopifyFailureEntry caseId sresp)]
            | .error e =>
              [UiAction.removeProcessing caseId,
               UiAction.addInvalid (shopifyThrowEntry caseId e)]
      else []

/-- The sequential `for (const caseId of caseIds)` loop, starting at batch
position `i`. -/
def runCases (client : LookupClient) : Nat → List String → List UiAction
  | _, [] => []
  | i, caseId :: rest => processCaseActions client i caseId ++ runCases client (i + 1) rest

/-- The validation-error message of the empty batch. -/
def emptyBatchError : String := "Please enter valid case IDs (numerals only)"

/-- Everything `handleProcess` does, as an ordered action list: the empty
batch fails fast with only a `setError`; otherwise loading is set, the error
and the four buckets are cleared, the loop runs, and loading is cleared in
the `finally`. -/
def handleProcessActions (client : LookupClient) (input : String) : List UiAction :=
  let caseIds := parseCaseIds input
  if caseIds.length = 0 then
    [UiAction.setError (some emptyBatchError)]
  else
    UiAction.setLoading true :: UiAction.setError none ::
    UiAction.clearProcessing :: UiAction.clearExisting ::
    UiAction.clearInvalid :: UiAction.clearSuccessful ::
      (runCases client 0 caseIds ++ [UiAction.setLoading false])

/-- The component state after `handleProcess` completes. -/
def handleProcess (client : LookupClient) (s : ComponentState) : ComponentState :=
  (handleProcessActions client s.caseInput).foldl applyAction s

/-- The intermediate states reached while a list of actions is applied, one
state per action (the "points in time" of a run). -/
def statesAfter (s : ComponentState) : List UiAction → List ComponentState
  | [] => []
  | a :: as => applyAction s a :: statesAfter (applyAction s a) as

/-- All intermediate states of one `handleProcess` run. -/
def handleProcessTrace (client : LookupClient) (s : ComponentState) : List ComponentState :=
  statesAfter s (handleProcessActions client s.caseInput)

/-- `handleClear` from the page: clears the input, all four buckets and the
error message. -/
def handleClear (s : ComponentState) : ComponentState :=
  { s with
      caseInput := ""
      processingCases := []
      existingCases := []
      invalidCases := []
      successfulCases := []
      error := none }

/-- `totalProcessed` from the page: sum of all four bucket sizes (the pending
bucket included). -/
def totalProcessed (s : ComponentState) : Nat :=
  s.processingCases.length + s.existingCases.length + s.invalidCases.length +
    s.successfulCases.length

/-- Number of identifiers in a terminal bucket. -/
def completedCount (s : ComponentState) : Nat :=
  s.existingCases.length + s.invalidCases.length + s.successfulCases.length

/-- Number of identifiers in the pending (processing) bucket. -/
def pendingCount (s : ComponentState) : Nat := s.processingCases.length

/-- The multiset of identifier occurrences over the three terminal buckets. -/
def terminalIds (s : ComponentState) : Multiset String :=
  (s.existingCases.map ExistingEntry.caseId : Multiset String) +
    (s.invalidCases.map InvalidEntry.caseId : Multiset String) +
    (s.successfulCases.map SuccessfulEntry.caseId : Multiset String)

/-- The identifier of a terminal-bucket emission, if the action is one. -/
def terminalIdOf : UiAction → Option String
  | .addExisting e => some e.caseId
  | .addInvalid e => some e.caseId
  | .addSuccessful e => some e.caseId
  | _ => none

/-- The identifiers of the terminal-bucket emissions of an action list, in
emission order. -/
def emittedTerminals (as : List UiAction) : List String := as.filterMap terminalIdOf

/-- Whether an action is a pending-bucket emission. -/
def isPendingEmit : UiAction → Bool
  | .addProcessing _ => true
  | _ => false

/-- The parser output the specification describes: the trimmed input lines
that match `^\d+$`, in their original order. -/
def parseSpecLines (input : String) : List String :=
  ((jsSplitLines input).map jsTrim).filter regexDigits

lemma isDigit_isWhitespace_false {c : Char} (h : c.isDigit = true) :
    c.isWhitespace = false := by
  rcases Bool.eq_false_or_eq_true c.isWhitespace with hw | hw
  · exfalso
    simp only [Char.isWhitespace, Bool.or_eq_true, decide_eq_true_eq] at hw
    rcases hw with ((rfl | rfl) | rfl) | rfl <;> exact absurd h (by decide)
  · exact hw

lemma dropWhile_whitespace_of_digits {l : List Char} (h : ∀ c ∈ l, c.isDigit = true) :
    l.dropWhile Char.isWhitespace = l := by
  cases l with
  | nil => rfl
  | cons c cs =>
    rw [List.dropWhile_cons]
    rw [isDigit_isWhitespace_false (h c (by simp))]
    simp

lemma jsTrim_of_regexDigits {s : String} (h : regexDigits s = true) : jsTrim s = s := by
  unfold regexDigits at h
  rw [Bool.and_eq_true] at h
  have hall : ∀ c ∈ s.data, c.isDigit = true := by
    have := h.2
    rw [List.all_eq_true] at this
    exact this
  unfold jsTrim
  rw [dropWhile_whitespace_of_digits hall]
  rw [dropWhile_whitespace_of_digits (by intro c hc; exact hall c (List.mem_reverse.mp hc))]
  rw [List.reverse_reverse]
  cases s
  rfl

lemma jsTruthy_of_regexDigits {s : String} (h : regexDigits s = true) :
    jsTruthy s = true := by
  unfold jsTruthy
  rw [bne_iff_ne]
  intro he
  subst he
  exact absurd h (by decide)

lemma parseCaseIds_eq_parseSpecLines (input : String) :
    parseCaseIds input = parseSpecLines input := by
  unfold parseCaseIds parseSpecLines
  rw [List.filter_congr (q := regexDigits) ?_]
  · rw [List.map_congr_left ?_, List.map_id]
    intro a ha
    rw [List.mem_filter] at ha
    exact jsTrim_of_regexDigits ha.2
  · intro a _
    rcases Bool.eq_false_or_eq_true (regexDigits a) with hr | hr
    · simp [hr, jsTruthy_of_regexDigits hr]
    · simp [hr]


/-- C6: for every raw input, `parseCaseIds` returns exactly the trimmed lines
that match `^\d+$`, in their original order with duplicates preserved; hence
the output is no longer than the list of input lines, every output element
matches `^\d+$`, and all other lines are dropped. -/
theorem parse_exactly_digit_lines (input : String) :
    parseCaseIds input = parseSpecLines input ∧
    (parseCaseIds input).length ≤ (jsSplitLines input).length ∧
    ∀ l ∈ parseCaseIds input, regexDigits l = true := by
  refine ⟨parseCaseIds_eq_parseSpecLines input, ?_, ?_⟩
  · rw [parseCaseIds_eq_parseSpecLines]
    unfold parseSpecLines
    calc (((jsSplitLines input).map jsTrim).filter regexDigits).length
        ≤ ((jsSplitLines input).map jsTrim).length := List.length_filter_le _ _
      _ = (jsSplitLines input).length := List.length_map _ _
  · intro l hl
    rw [parseCaseIds_eq_parseSpecLines] at hl
    unfold parseSpecLines at hl
    rw [List.mem_filter] at hl
    exact hl.2

lemma statesAfter_append (as bs : List UiAction) :
    ∀ s : ComponentState,
      statesAfter s (as ++ bs) =
        statesAfter s as ++ statesAfter (as.foldl applyAction s) bs := by
  induction as with
  | nil => intro s; simp [statesAfter]
  | cons a as ih => intro s; simp [statesAfter, ih]

lemma runCases_getElem (client : LookupClient) :
    ∀ (ids : List String) (i j : Nat) (id : String), ids[j]? = some id →
      ∃ pre post, runCases client i ids =
        pre ++ processCaseActions client (i + j) id ++ post := by
  intro ids
  induction ids with
  | nil => intro i j id h; simp at h
  | cons c rest ih =>
    intro i j id h
    cases j with
    | zero =>
      simp at h
      subst h
      exact ⟨[], runCases client (i + 1) rest, by simp [runCases]⟩
    | succ j =>
      simp at h
      obtain ⟨pre, post, heq⟩ := ih (i + 1) j id h
      refine ⟨processCaseActions client i c ++ pre, post, ?_⟩
      have : i + 1 + j = i + (j + 1) := by omega
      simp [runCases, heq, this]

lemma mem_runCases (client : LookupClient) :
    ∀ (ids : List String) (i : Nat) (a : UiAction),
      a ∈ runCases client i ids ↔
        ∃ j id, ids[j]? = some id ∧ a ∈ processCaseActions client (i + j) id := by
  intro ids
  induction ids with
  | nil => intro i a; simp [runCases]
  | cons c rest ih =>
    intro i a
    simp only [runCases, List.mem_append, ih]
    constructor
    · rintro (h | ⟨j, id, hj, hmem⟩)
      · exact ⟨0, c, by simp, by simpa using h⟩
      · exact ⟨j + 1, id, by simpa using hj, by rw [show i + (j + 1) = i + 1 + j by omega]; exact hmem⟩
    · rintro ⟨j, id, hj, hmem⟩
      cases j with
      | zero =>
        left
        simp at hj
        subst hj
        simpa using hmem
      | succ j =>
        right
        refine ⟨j, id, by simpa using hj, ?_⟩
        rw [show i + 1 + j = i + (j + 1) by omega]
        exact hmem

lemma callPrimary_mem_processCaseActions (client : LookupClient) (i : Nat) (id : String) :
    UiAction.callPrimary i id ∈ processCaseActions client i id := by
  unfold processCaseActions
  exact List.mem_cons_self _ _

lemma callShopify_eq_of_mem_processCaseActions {client : LookupClient} {i j : Nat}
    {id b : String} (h : UiAction.callShopify j b ∈ processCaseActions client i id) :
    j = i ∧ b = id := by
  rcases hc : client.checkExisting i id with e | resp
  · simp [processCaseActions, hc] at h
  · by_cases hs : resp.status = "success"
    · by_cases he : resp.data.caseExists = true
      · simp [processCaseActions, hc, hs, he] at h
      · rcases hf : client.fetchOrder i id with e | sresp
        · simp [processCaseActions, hc, hs, he, hf] at h
          tauto
        · by_cases hss : sresp.status = "success" <;>
            simp [processCaseActions, hc, hs, he, hf, hss] at h <;> tauto
    · simp [processCaseActions, hc, hs] at h

lemma not_clearExisting_mem_processCaseActions (client : LookupClient) (i : Nat)
    (id : String) : UiAction.clearExisting ∉ processCaseActions client i id := by
  rcases hc : client.checkExisting i id with e | resp
  · simp [processCaseActions, hc]
  · by_cases hs : resp.status = "success"
    · by_cases he : resp.data.caseExists = true
      · simp [processCaseActions, hc, hs, he]
      · rcases hf : client.fetchOrder i id with e | sresp
        · simp [processCaseActions, hc, hs, he, hf]
        · by_cases hss : sresp.status = "success" <;>
            simp [processCaseActions, hc, hs, he, hf, hss]
    · simp [processCaseActions, hc, hs]

lemma not_clearInvalid_mem_processCaseActions (client : LookupClient) (i : Nat)
    (id : String) : UiAction.clearInvalid ∉ processCaseActions client i id := by
  rcases hc : client.checkExisting i id with e | resp
  · simp [processCaseActions, hc]
  · by_cases hs : resp.status = "success"
    · by_cases he : resp.data.caseExists = true
      · simp [processCaseActions, hc, hs, he]
      · rcases hf : client.fetchOrder i id with e | sresp
        · simp [processCaseActions, hc, hs, he, hf]
        · by_cases hss : sresp.status = "success" <;>
            simp [processCaseActions, hc, hs, he, hf, hss]
    · simp [processCaseActions, hc, hs]

lemma existing_persists (as : List UiAction) :
    ∀ (s : ComponentState) (e : ExistingEntry),
      UiAction.clearExisting ∉ as → e ∈ s.existingCases →
      e ∈ (as.foldl applyAction s).existingCases := by
  induction as with
  | nil => intro s e _ h; simpa using h
  | cons a as ih =>
    intro s e hnc hmem
    rw [List.foldl_cons]
    refine ih _ _ (fun h => hnc (List.mem_cons_of_mem _ h)) ?_
    cases a with
    | clearExisting => exact absurd (List.mem_cons_self _ _) hnc
    | addExisting e' => simp [applyAction]; left; exact hmem
    | _ => exact hmem

lemma mem_existing_of_addExisting (as : List UiAction) :
    ∀ (s : ComponentState) (e : ExistingEntry),
      UiAction.addExisting e ∈ as → UiAction.clearExisting ∉ as →
      e ∈ (as.foldl applyAction s).existingCases := by
  induction as with
  | nil => intro s e h; simp at h
  | cons a as ih =>
    intro s e hmem hnc
    rw [List.foldl_cons]
    rcases List.mem_cons.mp hmem with heq | hmem'
    · subst heq
      refine existing_persists as _ e (fun h => hnc (List.mem_cons_of_mem _ h)) ?_
      simp [applyAction]
    · exact ih _ _ hmem' (fun h => hnc (List.mem_cons_of_mem _ h))

lemma invalid_persists (as : List UiAction) :
    ∀ (s : ComponentState) (e : InvalidEntry),
      UiAction.clearInvalid ∉ as → e ∈ s.invalidCases →
      e ∈ (as.foldl applyAction s).invalidCases := by
  induction as with
  | nil => intro s e _ h; simpa using h
  | cons a as ih =>
    intro s e hnc hmem
    rw [List.foldl_cons]
    refine ih _ _ (fun h => hnc (List.mem_cons_of_mem _ h)) ?_
    cases a with
    | clearInvalid => exact absurd (List.mem_cons_self _ _) hnc
    | addInvalid e' => simp [applyAction]; left; exact hmem
    | _ => exact hmem

lemma mem_invalid_of_addInvalid (as : List UiAction) :
    ∀ (s : ComponentState) (e : InvalidEntry),
      UiAction.addInvalid e ∈ as → UiAction.clearInvalid ∉ as →
      e ∈ (as.foldl applyAction s).invalidCases := by
  induction as with
  | nil => intro s e h; simp at h
  | cons a as ih =>
    intro s e hmem hnc
    rw [List.foldl_cons]
    rcases List.mem_cons.mp hmem with heq | hmem'
    · subst heq
      refine invalid_persists as _ e (fun h => hnc (List.mem_cons_of_mem _ h)) ?_
      simp [applyAction]
    · exact ih _ _ hmem' (fun h => hnc (List.mem_cons_of_mem _ h))

lemma terminalIds_set_existing (s : ComponentState) (e : ExistingEntry) (P : List ProcessingEntry) :
    terminalIds { s with processingCases := P, existingCases := s.existingCases ++ [e] } =
      terminalIds s + {e.caseId} := by
  simp only [terminalIds, List.map_append, List.map_cons, List.map_nil,
    ← Multiset.coe_add, Multiset.coe_singleton]
  abel

lemma terminalIds_set_invalid (s : ComponentState) (e : InvalidEntry) (P : List ProcessingEntry) :
    terminalIds { s with processingCases := P, invalidCases := s.invalidCases ++ [e] } =
      terminalIds s + {e.caseId} := by
  simp only [terminalIds, List.map_append, List.map_cons, List.map_nil,
    ← Multiset.coe_add, Multiset.coe_singleton]
  abel

lemma terminalIds_set_successful (s : ComponentState) (e : SuccessfulEntry) (P : List ProcessingEntry) :
    terminalIds { s with processingCases := P, successfulCases := s.successfulCases ++ [e] } =
      terminalIds s + {e.caseId} := by
  simp only [terminalIds, List.map_append, List.map_cons, List.map_nil,
    ← Multiset.coe_add, Multiset.coe_singleton]
  abel

lemma block_terminal (client : LookupClient) (i : Nat) (id : String)
    (s : ComponentState) (hp : s.processingCases = [])
    (hok : ∃ r, client.checkExisting i id = Except.ok r ∧ r.status = "success") :
    ((processCaseActions client i id).foldl applyAction s).processingCases = [] ∧
      terminalIds ((processCaseActions client i id).foldl applyAction s) =
        terminalIds s + {id} := by
  obtain ⟨r, hc, hs⟩ := hok
  by_cases he : r.data.caseExists = true
  · constructor
    · simp [processCaseActions, hc, hs, he, applyAction, hp]
    · simp only [processCaseActions, hc, hs, if_true, he, if_pos]
      simp only [List.foldl_cons, List.foldl_nil, applyAction]
      have := terminalIds_set_existing s (existingEntryOf id r.data) s.processingCases
      simpa [existingEntryOf] using this
  · rcases hf : client.fetchOrder i id with e | sresp
    · constructor
      · simp [processCaseActions, hc, hs, he, hf, applyAction, hp, List.filter]
      · simp only [processCaseActions, hc, hs, if_true, he, hf]
        simp only [List.foldl_cons, List.foldl_nil, applyAction]
        have := terminalIds_set_invalid s (shopifyThrowEntry id e)
          ((s.processingCases ++ [({ caseId := id, status := "Pending Shopify Lookup" } : ProcessingEntry)]).filter
            (fun item => item.caseId != id))
        simpa [shopifyThrowEntry] using this
    · by_cases hss : sresp.status = "success"
      · constructor
        · simp [processCaseActions, hc, hs, he, hf, hss, applyAction, hp, List.filter]
        · simp only [processCaseActions, hc, hs, if_true, he, hf, hss]
          simp only [List.foldl_cons, List.foldl_nil, applyAction]
          have := terminalIds_set_successful s
            { caseId := id, orderData := sresp.data.orderData, status := "Successfully Processed" }
            ((s.processingCases ++ [({ caseId := id, status := "Pending Shopify Lookup" } : ProcessingEntry)]).filter
              (fun item => item.caseId != id))
          simpa using this
      · constructor
        · simp [processCaseActions, hc, hs, he, hf, hss, applyAction, hp, List.filter]
        · simp only [processCaseActions, hc, hs, if_true, he, hf, hss]
          simp only [List.foldl_cons, List.foldl_nil, applyAction]
          have := terminalIds_set_invalid s (shopifyFailureEntry id sresp)
            ((s.processingCases ++ [({ caseId := id, status := "Pending Shopify Lookup" } : ProcessingEntry)]).filter
              (fun item => item.caseId != id))
          simpa [shopifyFailureEntry] using this

lemma runCases_terminal (client : LookupClient) :
    ∀ (ids : List String) (i : Nat) (s : ComponentState),
      s.processingCases = [] →
      (∀ j id, ids[j]? = some id →
        ∃ r, client.checkExisting (i + j) id = Except.ok r ∧ r.status = "success") →
      ((runCases client i ids).foldl applyAction s).processingCases = [] ∧
        terminalIds ((runCases client i ids).foldl applyAction s) =
          terminalIds s + (ids : Multiset String) := by
  intro ids
  induction ids with
  | nil => intro i s hp _; simp [runCases, hp]
  | cons c rest ih =>
    intro i s hp hok
    rw [runCases, List.foldl_append]
    have hhead := block_terminal client i c s hp (by simpa using hok 0 c (by simp))
    have htail := ih (i + 1) _ hhead.1 (fun j id hj => by
      have := hok (j + 1) id (by simpa using hj)
      rwa [show i + (j + 1) = i + 1 + j by omega] at this)
    refine ⟨htail.1, ?_⟩
    rw [htail.2, hhead.2]
    have : (↑(c :: rest) : Multiset String) = {c} + (↑rest : Multiset String) := by
      simp [Multiset.cons_coe]
    rw [this]
    abel

lemma block_trace_bound (client : LookupClient) (i : Nat) (id : String)
    (s : ComponentState) (hp : s.processingCases = []) :
    (∀ t ∈ statesAfter s (processCaseActions client i id),
        completedCount t + pendingCount t ≤ completedCount s + 1) ∧
      ((processCaseActions client i id).foldl applyAction s).processingCases = [] ∧
      completedCount ((processCaseActions client i id).foldl applyAction s) ≤
        completedCount s + 1 := by
  rcases hc : client.checkExisting i id with e | resp
  · refine ⟨?_, ?_, ?_⟩ <;>
      simp [processCaseActions, hc, statesAfter, applyAction, completedCount, pendingCount, hp]
  · by_cases hs : resp.status = "success"
    · by_cases he : resp.data.caseExists = true
      · refine ⟨?_, ?_, ?_⟩ <;>
          simp [processCaseActions, hc, hs, he, statesAfter, applyAction, completedCount,
            pendingCount, hp] <;> omega
      · rcases hf : client.fetchOrder i id with e | sresp
        · refine ⟨?_, ?_, ?_⟩ <;>
            simp [processCaseActions, hc, hs, he, hf, statesAfter, applyAction, completedCount,
              pendingCount, hp, List.filter] <;> omega
        · by_cases hss : sresp.status = "success" <;>
            (refine ⟨?_, ?_, ?_⟩ <;>
              simp [processCaseActions, hc, hs, he, hf, hss, statesAfter, applyAction,
                completedCount, pendingCount, hp, List.filter] <;> omega)
    · refine ⟨?_, ?_, ?_⟩ <;>
        simp [processCaseActions, hc, hs, statesAfter, applyAction, completedCount,
          pendingCount, hp]

lemma runCases_trace_bound (client : LookupClient) :
    ∀ (ids : List String) (i : Nat) (s : ComponentState),
      s.processingCases = [] →
      (∀ t ∈ statesAfter s (runCases client i ids),
          completedCount t + pendingCount t ≤ completedCount s + ids.length) ∧
        ((runCases client i ids).foldl applyAction s).processingCases = [] ∧
        completedCount ((runCases client i ids).foldl applyAction s) ≤
          completedCount s + ids.length := by
  intro ids
  induction ids with
  | nil => intro i s hp; simp [runCases, statesAfter, hp]
  | cons c rest ih =>
    intro i s hp
    have hblock := block_trace_bound client i c s hp
    have htail := ih (i + 1) ((processCaseActions client i c).foldl applyAction s) hblock.2.1
    refine ⟨?_, ?_, ?_⟩
    · intro t ht
      rw [runCases, statesAfter_append] at ht
      rcases List.mem_append.mp ht with h | h
      · have := hblock.1 t h
        simp only [List.length_cons]
        omega
      · have := htail.1 t h
        have := hblock.2.2
        simp only [List.length_cons]
        omega
    · rw [runCases, List.foldl_append]
      exact htail.2.1
    · rw [runCases, List.foldl_append]
      have := htail.2.2
      have := hblock.2.2
      simp only [List.length_cons]
      omega

lemma terminalIds_setLoading (s : ComponentState) (b : Bool) :
    terminalIds (applyAction s (UiAction.setLoading b)) = terminalIds s := rfl

lemma processing_setLoading (s : ComponentState) (b : Bool) :
    (applyAction s (UiAction.setLoading b)).processingCases = s.processingCases := rfl

lemma handleProcess_terminal (client : LookupClient) (s : ComponentState)
    (hne : parseCaseIds s.caseInput ≠ [])
    (hok : ∀ j id, (parseCaseIds s.caseInput)[j]? = some id →
      ∃ r, client.checkExisting j id = Except.ok r ∧ r.status = "success") :
    terminalIds (handleProcess client s) = (parseCaseIds s.caseInput : Multiset String) ∧
      (handleProcess client s).processingCases = [] := by
  have hlen : ¬(parseCaseIds s.caseInput).length = 0 := by
    simpa [List.length_eq_zero] using hne
  unfold handleProcess handleProcessActions
  rw [if_neg hlen]
  simp only [List.foldl_cons, applyAction]
  rw [List.foldl_append]
  have hrun := runCases_terminal client (parseCaseIds s.caseInput) 0
    { s with
        loading := true
        error := none
        processingCases := []
        existingCases := []
        invalidCases := []
        successfulCases := [] }
    rfl
    (fun j id hj => by simpa using hok j id hj)
  constructor
  · simp only [List.foldl_cons, List.foldl_nil]
    rw [terminalIds_setLoading, hrun.2]
    simp [terminalIds]
  · simp only [List.foldl_cons, List.foldl_nil]
    rw [processing_setLoading]
    exact hrun.1

lemma emittedTerminals_block_sublist (client : LookupClient) (i : Nat) (id : String) :
    (emittedTerminals (processCaseActions client i id)).Sublist [id] := by
  rcases hc : client.checkExisting i id with e | resp
  · simp [processCaseActions, hc, emittedTerminals, terminalIdOf, List.filterMap]
  · by_cases hs : resp.status = "success"
    · by_cases he : resp.data.caseExists = true
      · simp [processCaseActions, hc, hs, he, emittedTerminals, terminalIdOf, List.filterMap,
          existingEntryOf]
      · rcases hf : client.fetchOrder i id with e | sresp
        · simp [processCaseActions, hc, hs, he, hf, emittedTerminals, terminalIdOf,
            List.filterMap, shopifyThrowEntry]
        · by_cases hss : sresp.status = "success" <;>
            simp [processCaseActions, hc, hs, he, hf, hss, emittedTerminals, terminalIdOf,
              List.filterMap, shopifyFailureEntry]
    · simp [processCaseActions, hc, hs, emittedTerminals, terminalIdOf, List.filterMap]

lemma emittedTerminals_runCases_sublist (client : LookupClient) :
    ∀ (ids : List String) (i : Nat),
      (emittedTerminals (runCases client i ids)).Sublist ids := by
  intro ids
  induction ids with
  | nil => intro i; simp [runCases, emittedTerminals]
  | cons c rest ih =>
    intro i
    rw [runCases]
    unfold emittedTerminals
    rw [List.filterMap_append]
    exact List.Sublist.append (emittedTerminals_block_sublist client i c) (ih (i + 1))

lemma length_pos_of_getElem {ids : List String} {j : Nat} {id : String}
    (h : ids[j]? = some id) : ¬ids.length = 0 := by
  obtain ⟨hlt, -⟩ := List.getElem?_eq_some_iff.mp h
  omega

lemma callPrimary_mem_handleProcessActions (client : LookupClient) (input : String)
    {j : Nat} {jd : String} (h : (parseCaseIds input)[j]? = some jd) :
    UiAction.callPrimary j jd ∈ handleProcessActions client input := by
  unfold handleProcessActions
  rw [if_neg (length_pos_of_getElem h)]
  have hmem : UiAction.callPrimary j jd ∈ runCases client 0 (parseCaseIds input) := by
    rw [mem_runCases]
    refine ⟨j, jd, h, ?_⟩
    rw [Nat.zero_add]
    exact callPrimary_mem_processCaseActions client j jd
  simp [List.mem_append, hmem]

/-- C9: `handleClear` is idempotent — applying it twice from any state yields
exactly the same state as applying it once — and the state it produces has
all four buckets empty, the error cleared and the input cleared. -/
theorem handleClear_idempotent (s : ComponentState) :
    handleClear (handleClear s) = handleClear s ∧
      (handleClear s).caseInput = "" ∧
      (handleClear s).processingCases = [] ∧
      (handleClear s).existingCases = [] ∧
      (handleClear s).invalidCases = [] ∧
      (handleClear s).successfulCases = [] ∧
      (handleClear s).error = none :=
  ⟨rfl, rfl, rfl, rfl, rfl, rfl, rfl⟩

/-- C5: when the parsed identifier list is empty, `handleProcess` only sets
the validation error and returns before issuing any remote call; every bucket
is left exactly as it was (no partial run is started). -/
theorem empty_batch_fails_fast (client : LookupClient) (s : ComponentState)
    (h : parseCaseIds s.caseInput = []) :
    handleProcessActions client s.caseInput = [UiAction.setError (some emptyBatchError)] ∧
      handleProcess client s = { s with error := some emptyBatchError } ∧
      (∀ i id, UiAction.callPrimary i id ∉ handleProcessActions client s.caseInput) ∧
      (∀ i id, UiAction.callShopify i id ∉ handleProcessActions client s.caseInput) ∧
      (handleProcess client s).processingCases = s.processingCases ∧
      (handleProcess client s).existingCases = s.existingCases ∧
      (handleProcess client s).invalidCases = s.invalidCases ∧
      (handleProcess client s).successfulCases = s.successfulCases := by
  have hact : handleProcessActions client s.caseInput =
      [UiAction.setError (some emptyBatchError)] := by
    unfold handleProcessActions
    rw [h]
    simp
  refine ⟨hact, ?_, ?_, ?_, ?_, ?_, ?_, ?_⟩ <;>
    simp [handleProcess, hact, applyAction]

/-- A client used to witness the empty-batch behaviour; its responses are
never consulted. -/
def c5Client : LookupClient :=
  { checkExisting := fun _ _ => Except.error { message := none, dataMessage := none }
    fetchOrder := fun _ _ => Except.error { message := none, dataMessage := none } }

/-- Witness for C5 at the concrete empty input. -/
theorem empty_batch_fails_fast_witness :
    parseCaseIds initialState.caseInput = [] ∧
      handleProcess c5Client initialState = { initialState with error := some emptyBatchError } :=
  ⟨by decide, (empty_batch_fails_fast c5Client initialState (by decide)).2.1⟩

/-- The client of the silently-dropped batch: the primary check answers with
a well-formed response whose `status` is not `"success"`. -/
def c10Client : LookupClient :=
  { checkExisting := fun _ _ =>
      Except.ok { status := "error", data := { caseExists := false, caseData := none } }
    fetchOrder := fun _ _ => Except.error { message := none, dataMessage := none } }

/-- The component state of the silently-dropped batch. -/
def c10State : ComponentState := { initialState with caseInput := "42" }

/-- C10: when the primary check returns (without throwing) a response whose
status is not `"success"`, the identifier is placed in no bucket at all and
no error is recorded: the loop body performs only the primary call, and the
batch ends with all buckets empty and `error = none` although one identifier
was submitted. -/
theorem nonsuccess_primary_silently_dropped :
    parseCaseIds c10State.caseInput = ["42"] ∧
      processCaseActions c10Client 0 "42" = [UiAction.callPrimary 0 "42"] ∧
      (handleProcess c10Client c10State).existingCases = [] ∧
      (handleProcess c10Client c10State).successfulCases = [] ∧
      (handleProcess c10Client c10State).invalidCases = [] ∧
      (handleProcess c10Client c10State).processingCases = [] ∧
      (handleProcess c10Client c10State).error = none := by
  decide

lemma handleProcessActions_decomp (client : LookupClient) (input : String)
    (hlen : ¬(parseCaseIds input).length = 0) :
    handleProcessActions client input =
      [UiAction.setLoading true, UiAction.setError none, UiAction.clearProcessing,
        UiAction.clearExisting, UiAction.clearInvalid, UiAction.clearSuccessful] ++
        (runCases client 0 (parseCaseIds input) ++ [UiAction.setLoading false]) := by
  unfold handleProcessActions
  rw [if_neg hlen]
  rfl

/-- C2: whenever the primary existence check for the identifier at batch
position `i` succeeds and reports `exists: true`, the identifier ends in the
`existingCases` bucket carrying the record snapshot's status label, received
date and rush flag (as packaged by `existingEntryOf`), and the Shopify
lookup is never invoked for that identifier occurrence. -/
theorem existing_case_no_shopify_lookup (client : LookupClient) (s : ComponentState)
    (i : Nat) (id : String) (r : DbResponse)
    (hget : (parseCaseIds s.caseInput)[i]? = some id)
    (hc : client.checkExisting i id = Except.ok r)
    (hs : r.status = "success")
    (he : r.data.caseExists = true) :
    existingEntryOf id r.data ∈ (handleProcess client s).existingCases ∧
      UiAction.callShopify i id ∉ handleProcessActions client s.caseInput := by
  have hlen := length_pos_of_getElem hget
  have hblock : processCaseActions client i id =
      [UiAction.callPrimary i id, UiAction.addExisting (existingEntryOf id r.data)] := by
    simp [processCaseActions, hc, hs, he]
  constructor
  · unfold handleProcess
    rw [handleProcessActions_decomp client s.caseInput hlen, List.foldl_append]
    apply mem_existing_of_addExisting
    · rw [List.mem_append]
      left
      rw [mem_runCases]
      refine ⟨i, id, hget, ?_⟩
      rw [Nat.zero_add, hblock]
      simp
    · rw [List.mem_append]
      rintro (hin | hin)
      · obtain ⟨j, jd, hj, hmem⟩ := (mem_runCases client _ 0 _).mp hin
        exact not_clearExisting_mem_processCaseActions client (0 + j) jd hmem
      · simp at hin
  · rw [handleProcessActions_decomp client s.caseInput hlen]
    intro hmem
    rw [List.mem_append] at hmem
    rcases hmem with hmem | hmem
    · simp at hmem
    · rw [List.mem_append] at hmem
      rcases hmem with hmem | hmem
      · obtain ⟨j, jd, hj, hmem'⟩ := (mem_runCases client _ 0 _).mp hmem
        obtain ⟨hji, hjd⟩ := callShopify_eq_of_mem_processCaseActions hmem'
        subst hjd
        rw [← hji, hblock] at hmem'
        simp at hmem'
      · simp at hmem

/-- The database record returned for the witness of C2. -/
def c2Record : CaseRecord :=
  { statusStreamlineOptions := some "Shipped"
    caseDateReceived := some "2024-01-01"
    isRushOrder := some true }

/-- The primary response of the C2 witness: an existing case. -/
def c2Response : DbResponse :=
  { status := "success", data := { caseExists := true, caseData := some c2Record } }

/-- The client of the C2 witness. -/
def c2Client : LookupClient :=
  { checkExisting := fun _ _ => Except.ok c2Response
    fetchOrder := fun _ _ => Except.error { message := none, dataMessage := none } }

/-- The component state of the C2 witness. -/
def c2State : ComponentState := { initialState with caseInput := "1001" }

/-- Witness for C2 at the concrete identifier `"1001"`. -/
theorem existing_case_no_shopify_lookup_witness :
    existingEntryOf "1001" c2Response.data ∈ (handleProcess c2Client c2State).existingCases ∧
      UiAction.callShopify 0 "1001" ∉ handleProcessActions c2Client c2State.caseInput :=
  existing_case_no_shopify_lookup c2Client c2State 0 "1001" c2Response (by decide) rfl rfl rfl

/-- C3: when the primary check reports the identifier does not exist and the
Shopify lookup answers with a non-success response (or throws), the
identifier ends in the `invalidCases` bucket with the human-readable reason
extracted from the response or error (and, in the response case, the
machine error code), and every identifier of the batch still has its primary
lookup performed. -/
theorem shopify_failure_recorded_batch_continues (client : LookupClient)
    (s : ComponentState) (i : Nat) (id : String) (r : DbResponse)
    (hget : (parseCaseIds s.caseInput)[i]? = some id)
    (hc : client.checkExisting i id = Except.ok r)
    (hs : r.status = "success")
    (he : r.data.caseExists = false) :
    (∀ sresp, client.fetchOrder i id = Except.ok sresp → sresp.status ≠ "success" →
      shopifyFailureEntry id sresp ∈ (handleProcess client s).invalidCases) ∧
      (∀ e, client.fetchOrder i id = Except.error e →
        shopifyThrowEntry id e ∈ (handleProcess client s).invalidCases) ∧
      (∀ j jd, (parseCaseIds s.caseInput)[j]? = some jd →
        UiAction.callPrimary j jd ∈ handleProcessActions client s.caseInput) := by
  have hlen := length_pos_of_getElem hget
  have key : ∀ entry : InvalidEntry,
      UiAction.addInvalid entry ∈ processCaseActions client i id →
      entry ∈ (handleProcess client s).invalidCases := by
    intro entry hentry
    unfold handleProcess
    rw [handleProcessActions_decomp client s.caseInput hlen, List.foldl_append]
    apply mem_invalid_of_addInvalid
    · rw [List.mem_append]
      left
      rw [mem_runCases]
      exact ⟨i, id, hget, by rw [Nat.zero_add]; exact hentry⟩
    · rw [List.mem_append]
      rintro (hin | hin)
      · obtain ⟨j, jd, hj, hmem⟩ := (mem_runCases client _ 0 _).mp hin
        exact not_clearInvalid_mem_processCaseActions client (0 + j) jd hmem
      · simp at hin
  refine ⟨?_, ?_, ?_⟩
  · intro sresp hf hss
    apply key
    simp [processCaseActions, hc, hs, he, hf, hss]
  · intro e hf
    apply key
    simp [processCaseActions, hc, hs, he, hf]
  · intro j jd hj
    exact callPrimary_mem_handleProcessActions client s.caseInput hj

/-- The primary response of the C3 witness: an unknown case. -/
def c3Response : DbResponse :=
  { status := "success", data := { caseExists := false, caseData := none } }

/-- The failing Shopify response of the C3 witness. -/
def c3ShopifyResponse : ShopifyResponse :=
  { status := "error"
    data := { orderData := "" }
    message := some "order not found"
    code := some "NOT_FOUND" }

/-- The client of the C3 witness. -/
def c3Client : LookupClient :=
  { checkExisting := fun _ _ => Except.ok c3Response
    fetchOrder := fun _ _ => Except.ok c3ShopifyResponse }

/-- The component state of the C3 witness. -/
def c3State : ComponentState := { initialState with caseInput := "3003\n77" }

/-- Witness for C3 at the concrete identifier `"3003"`: the invalid entry
carries reason `"order not found"` and code `"NOT_FOUND"`, and the later
identifier `"77"` is still processed. -/
theorem shopify_failure_recorded_batch_continues_witness :
    shopifyFailureEntry "3003" c3ShopifyResponse ∈
        (handleProcess c3Client c3State).invalidCases ∧
      UiAction.callPrimary 1 "77" ∈ handleProcessActions c3Client c3State.caseInput ∧
      shopifyFailureEntry "3003" c3ShopifyResponse =
        { caseId := "3003", reason := "order not found", errorCode := some "NOT_FOUND",
          orderData := none } := by
  have h := shopify_failure_recorded_batch_continues c3Client c3State 0 "3003" c3Response
    (by decide) rfl rfl rfl
  exact ⟨h.1 c3ShopifyResponse rfl (by decide), h.2.2 1 "77" (by decide), by decide⟩

/-- The client of the C4 counterexample: the primary check throws. -/
def c4Client : LookupClient :=
  { checkExisting := fun _ _ => Except.error { message := some "boom", dataMessage := none }
    fetchOrder := fun _ _ => Except.error { message := none, dataMessage := none } }

/-- The component state of the C4 counterexample. -/
def c4State : ComponentState := { initialState with caseInput := "7" }

/-- C4 counterexample: when the primary check for `"7"` throws, the batch
error is set, but the identifier is NOT emitted as `Failed`: the invalid
bucket stays empty, so no entry with reason `"primary lookup error"` (or any
other reason) exists. -/
theorem primary_throw_no_failed_entry_cex :
    parseCaseIds c4State.caseInput = ["7"] ∧
      (handleProcess c4Client c4State).invalidCases = [] ∧
      (handleProcess c4Client c4State).error = some "Error processing case 7: boom" ∧
      (∀ e ∈ (handleProcess c4Client c4State).invalidCases,
        e.reason ≠ "primary lookup error") := by
  decide

/-- C4 (amended): when the primary check for the identifier at position `i`
throws, the loop body performs only the primary call and the batch-level
`setError` (so later errors overwrite earlier ones), emits the identifier
into no bucket, and every identifier of the batch still has its primary
lookup performed — no per-identifier error escapes the loop. -/
theorem primary_throw_sets_error_and_continues (client : LookupClient)
    (s : ComponentState) (i : Nat) (id : String) (e : JsError)
    (_hget : (parseCaseIds s.caseInput)[i]? = some id)
    (herr : client.checkExisting i id = Except.error e) :
    processCaseActions client i id =
        [UiAction.callPrimary i id,
          UiAction.setError (some (primaryErrorMessage id e))] ∧
      emittedTerminals (processCaseActions client i id) = [] ∧
      (∀ j jd, (parseCaseIds s.caseInput)[j]? = some jd →
        UiAction.callPrimary j jd ∈ handleProcessActions client s.caseInput) := by
  have hblock : processCaseActions client i id =
      [UiAction.callPrimary i id, UiAction.setError (some (primaryErrorMessage id e))] := by
    simp [processCaseActions, herr]
  refine ⟨hblock, ?_, ?_⟩
  · rw [hblock]
    rfl
  · intro j jd hj
    exact callPrimary_mem_handleProcessActions client s.caseInput hj

/-- The client of the C4 witness: the primary check throws for every case. -/
def c4wClient : LookupClient :=
  { checkExisting := fun _ _ => Except.error { message := some "net down", dataMessage := none }
    fetchOrder := fun _ _ => Except.error { message := none, dataMessage := none } }

/-- The component state of the C4 witness. -/
def c4wState : ComponentState := { initialState with caseInput := "8\n9" }

/-- Witness for the amended C4 at the concrete identifier `"8"`. -/
theorem primary_throw_sets_error_and_continues_witness :
    processCaseActions c4wClient 0 "8" =
        [UiAction.callPrimary 0 "8",
          UiAction.setError (some (primaryErrorMessage "8"
            { message := some "net down", dataMessage := none }))] ∧
      UiAction.callPrimary 1 "9" ∈ handleProcessActions c4wClient c4wState.caseInput := by
  have h := primary_throw_sets_error_and_continues c4wClient c4wState 0 "8"
    { message := some "net down", dataMessage := none } (by decide) rfl
  exact ⟨h.1, h.2.2 1 "9" (by decide)⟩

/-- The client of the C1 counterexample: the primary check answers with a
response whose status is not `"success"`. -/
def c1Client : LookupClient :=
  { checkExisting := fun _ _ =>
      Except.ok { status := "fail", data := { caseExists := false, caseData := none } }
    fetchOrder := fun _ _ => Except.error { message := none, dataMessage := none } }

/-- The component state of the C1 counterexample. -/
def c1State : ComponentState := { initialState with caseInput := "42" }

/-- C1 counterexample: the batch for `"42"` runs to completion, yet the
terminal buckets do not cover the submitted identifiers — `"42"` ends in no
terminal bucket at all, so the terminal buckets are not a partition of the
submitted identifiers. -/
theorem terminal_partition_cex :
    parseCaseIds c1State.caseInput = ["42"] ∧
      (handleProcess c1Client c1State).existingCases = [] ∧
      (handleProcess c1Client c1State).successfulCases = [] ∧
      (handleProcess c1Client c1State).invalidCases = [] ∧
      (handleProcess c1Client c1State).processingCases = [] ∧
      terminalIds (handleProcess c1Client c1State) ≠
        (parseCaseIds c1State.caseInput : Multiset String) := by
  decide

/-- C1 (amended): for every batch in which each primary existence check
returns (without throwing) a response with status `"success"`, the three
terminal buckets together hold exactly the submitted identifier occurrences
(as a multiset, so each occurrence lies in exactly one terminal bucket), and
the pending bucket is empty after the batch completes. -/
theorem terminal_partition_of_primary_success (client : LookupClient)
    (s : ComponentState) (hne : parseCaseIds s.caseInput ≠ [])
    (hok : ∀ j id, (parseCaseIds s.caseInput)[j]? = some id →
      ∃ r, client.checkExisting j id = Except.ok r ∧ r.status = "success") :
    terminalIds (handleProcess client s) = (parseCaseIds s.caseInput : Multiset String) ∧
      (handleProcess client s).processingCases = [] :=
  handleProcess_terminal client s hne hok

/-- The primary response of the C1 witness: an existing case. -/
def c1wResponse : DbResponse :=
  { status := "success", data := { caseExists := true, caseData := none } }

/-- The client of the C1 witness. -/
def c1wClient : LookupClient :=
  { checkExisting := fun _ _ => Except.ok c1wResponse
    fetchOrder := fun _ _ => Except.error { message := none, dataMessage := none } }

/-- The component state of the C1 witness (a duplicated identifier, so the
multiset equation checks occurrences, not mere membership). -/
def c1wState : ComponentState := { initialState with caseInput := "11\n11" }

/-- Witness for the amended C1 at the concrete batch `["11", "11"]`. -/
theorem terminal_partition_of_primary_success_witness :
    terminalIds (handleProcess c1wClient c1wState) =
        (parseCaseIds c1wState.caseInput : Multiset String) ∧
      (handleProcess c1wClient c1wState).processingCases = [] :=
  terminal_partition_of_primary_success c1wClient c1wState (by decide)
    (fun _ _ _ => ⟨c1wResponse, rfl, rfl⟩)

/-- The number of identifiers in a terminal bucket is the size of the
terminal multiset. -/
lemma completedCount_eq_card (s : ComponentState) :
    completedCount s = Multiset.card (terminalIds s) := by
  simp [completedCount, terminalIds]
  omega

lemma completedCount_setLoading (s : ComponentState) (b : Bool) :
    completedCount (applyAction s (UiAction.setLoading b)) = completedCount s := rfl

lemma pendingCount_setLoading (s : ComponentState) (b : Bool) :
    pendingCount (applyAction s (UiAction.setLoading b)) = pendingCount s := rfl

/-- The client of the C7 counterexample: unknown case, successful Shopify
fetch. -/
def c7Client : LookupClient :=
  { checkExisting := fun _ _ =>
      Except.ok { status := "success", data := { caseExists := false, caseData := none } }
    fetchOrder := fun _ _ =>
      Except.ok { status := "success", data := { orderData := "payload" }, message := none,
                  code := none } }

/-- The component state of the C7 counterexample. -/
def c7State : ComponentState := { initialState with caseInput := "1\n2" }

/-- The trace state of the C7 counterexample: the point just after the first
identifier entered the pending bucket. -/
def c7MidState : ComponentState :=
  (handleProcessTrace c7Client c7State).getD 7 initialState

/-- C7 counterexample: at a point in time after processing of the batch
`["1", "2"]` began (`loading` is already `true` and the first identifier is
pending), the completed count plus the pending count is `1`, not the
submitted total `2`. -/
theorem counters_cover_submitted_cex :
    c7MidState ∈ handleProcessTrace c7Client c7State ∧
      c7MidState.loading = true ∧
      (parseCaseIds c7State.caseInput).length = 2 ∧
      completedCount c7MidState + pendingCount c7MidState = 1 ∧
      completedCount c7MidState + pendingCount c7MidState ≠
        (parseCaseIds c7State.caseInput).length := by
  decide

/-- C7 (amended): starting from a state with all buckets empty, at every
point in time of a `handleProcess` run — whatever the lookup client answers,
including thrown and non-success primary responses — the completed count
plus the pending count never exceeds the number of submitted identifiers;
and when every primary check returns a response with status `"success"`, the
two counts sum to exactly the submitted total once the batch completes. -/
theorem counters_bounded_and_complete (client : LookupClient) (s : ComponentState)
    (hfresh : s.processingCases = [] ∧ s.existingCases = [] ∧
      s.invalidCases = [] ∧ s.successfulCases = []) :
    (∀ t ∈ handleProcessTrace client s,
        completedCount t + pendingCount t ≤ (parseCaseIds s.caseInput).length) ∧
      ((∀ j id, (parseCaseIds s.caseInput)[j]? = some id →
          ∃ r, client.checkExisting j id = Except.ok r ∧ r.status = "success") →
        completedCount (handleProcess client s) + pendingCount (handleProcess client s) =
          (parseCaseIds s.caseInput).length) := by
  obtain ⟨hf1, hf2, hf3, hf4⟩ := hfresh
  constructor
  · by_cases hlen : (parseCaseIds s.caseInput).length = 0
    · unfold handleProcessTrace handleProcessActions
      rw [if_pos hlen]
      intro t ht
      simp only [statesAfter, applyAction, List.mem_singleton] at ht
      subst ht
      simp [completedCount, pendingCount, hf1, hf2, hf3, hf4]
    · unfold handleProcessTrace
      rw [handleProcessActions_decomp client s.caseInput hlen]
      rw [statesAfter_append]
      intro t ht
      rcases List.mem_append.mp ht with h | h
      · simp only [statesAfter, applyAction, List.mem_cons, List.not_mem_nil, or_false] at h
        rcases h with rfl | rfl | rfl | rfl | rfl | rfl <;>
          simp [completedCount, pendingCount, hf1, hf2, hf3, hf4]
      · rw [statesAfter_append] at h
        set s6 : ComponentState :=
          List.foldl applyAction s
            [UiAction.setLoading true, UiAction.setError none, UiAction.clearProcessing,
              UiAction.clearExisting, UiAction.clearInvalid, UiAction.clearSuccessful] with hs6
        have hs6p : s6.processingCases = [] := rfl
        have hs6c : completedCount s6 = 0 := rfl
        have hbound := runCases_trace_bound client (parseCaseIds s.caseInput) 0 s6 hs6p
        rcases List.mem_append.mp h with h' | h'
        · have := hbound.1 t h'
          omega
        · simp only [statesAfter, List.mem_cons, List.not_mem_nil, or_false] at h'
          subst h'
          rw [completedCount_setLoading, pendingCount_setLoading]
          have hp7 : pendingCount
              ((runCases client 0 (parseCaseIds s.caseInput)).foldl applyAction s6) = 0 := by
            simp [pendingCount, hbound.2.1]
          have hc7 := hbound.2.2
          rw [hs6c] at hc7
          omega
  · intro hok
    by_cases hne : parseCaseIds s.caseInput = []
    · unfold handleProcess handleProcessActions
      rw [hne]
      simp [applyAction, completedCount, pendingCount, hf1, hf2, hf3, hf4]
    · have hterm := handleProcess_terminal client s hne hok
      rw [completedCount_eq_card, hterm.1, pendingCount, hterm.2]
      simp [Multiset.coe_card]

/-- The primary response of the C7 witness: an existing case. -/
def c7wResponse : DbResponse :=
  { status := "success", data := { caseExists := true, caseData := none } }

/-- The client of the C7 witness. -/
def c7wClient : LookupClient :=
  { checkExisting := fun _ _ => Except.ok c7wResponse
    fetchOrder := fun _ _ => Except.error { message := none, dataMessage := none } }

/-- The component state of the C7 witness. -/
def c7wState : ComponentState := { initialState with caseInput := "5\n6" }

/-- Witness for the amended C7 at the concrete batch `["5", "6"]`. -/
theorem counters_bounded_and_complete_witness :
    completedCount (handleProcess c7wClient c7wState) +
        pendingCount (handleProcess c7wClient c7wState) =
      (parseCaseIds c7wState.caseInput).length :=
  (counters_bounded_and_complete c7wClient c7wState ⟨rfl, rfl, rfl, rfl⟩).2
    (fun _ _ _ => ⟨c7wResponse, rfl, rfl⟩)

/-- The client of the C8 counterexample: the primary check reports the case
exists. -/
def c8Client : LookupClient :=
  { checkExisting := fun _ _ =>
      Except.ok { status := "success", data := { caseExists := true, caseData := none } }
    fetchOrder := fun _ _ => Except.error { message := none, dataMessage := none } }

/-- The component state of the C8 counterexample. -/
def c8State : ComponentState := { initialState with caseInput := "5" }

/-- C8 counterexample: the identifier `"5"` is processed (its primary check
is invoked), yet no `PendingLookup` event is ever emitted for it — so no
pending event precedes the primary existence check, contrary to the claim
that one is emitted immediately when processing starts. -/
theorem pending_before_primary_cex :
    parseCaseIds c8State.caseInput = ["5"] ∧
      UiAction.callPrimary 0 "5" ∈ handleProcessActions c8Client c8State.caseInput ∧
      (handleProcessActions c8Client c8State.caseInput).all
        (fun a => !isPendingEmit a) = true := by
  decide

/-- C8 (amended): a pending event is emitted for an identifier only after
its primary check reports (without throwing, with status `"success"`) that
the identifier does not exist — in every other branch (exists, thrown
primary, non-success status) the loop body emits no pending event at all,
so no pending event precedes or opens the processing of an identifier — in
the not-exists branch the loop body is exactly primary call, pending
emission, Shopify call, pending removal and one terminal emission for that
identifier, so within one identifier the pending event precedes both the
secondary call and the terminal event — and the terminal-bucket emissions of
a whole run form a sublist of the input identifier sequence (outcome events
in input order, at most one per identifier). -/
theorem pending_and_outcome_order (client : LookupClient) (input : String) :
    (∀ i id a, a ∈ processCaseActions client i id → isPendingEmit a = true →
      ∃ r, client.checkExisting i id = Except.ok r ∧ r.status = "success" ∧
        r.data.caseExists = false) ∧
      (∀ i id r, client.checkExisting i id = Except.ok r → r.status = "success" →
        r.data.caseExists = false →
        ∃ t, processCaseActions client i id =
          [UiAction.callPrimary i id,
            UiAction.addProcessing { caseId := id, status := "Pending Shopify Lookup" },
            UiAction.callShopify i id, UiAction.removeProcessing id, t] ∧
          terminalIdOf t = some id) ∧
      (emittedTerminals (handleProcessActions client input)).Sublist (parseCaseIds input) := by
  refine ⟨?_, ?_, ?_⟩
  · intro i id a ha hpend
    rcases hc : client.checkExisting i id with e | resp
    · simp [processCaseActions, hc] at ha
      rcases ha with rfl | rfl <;> simp [isPendingEmit] at hpend
    · by_cases hs : resp.status = "success"
      · by_cases he : resp.data.caseExists = true
        · simp [processCaseActions, hc, hs, he] at ha
          rcases ha with rfl | rfl <;> simp [isPendingEmit] at hpend
        · exact ⟨resp, rfl, hs, by simpa using he⟩
      · simp [processCaseActions, hc, hs] at ha
        subst ha
        simp [isPendingEmit] at hpend
  · intro i id r hc hs he
    have he' : ¬r.data.caseExists = true := by simp [he]
    rcases hf : client.fetchOrder i id with e | sresp
    · refine ⟨UiAction.addInvalid (shopifyThrowEntry id e), ?_, rfl⟩
      simp [processCaseActions, hc, hs, he', hf]
    · by_cases hss : sresp.status = "success"
      · refine ⟨UiAction.addSuccessful
          { caseId := id, orderData := sresp.data.orderData,
            status := "Successfully Processed" }, ?_, rfl⟩
        simp [processCaseActions, hc, hs, he', hf, hss]
      · refine ⟨UiAction.addInvalid (shopifyFailureEntry id sresp), ?_, rfl⟩
        simp [processCaseActions, hc, hs, he', hf, hss]
  · by_cases hlen : (parseCaseIds input).length = 0
    · unfold handleProcessActions
      rw [if_pos hlen]
      rw [List.length_eq_zero.mp hlen]
      simp [emittedTerminals, terminalIdOf]
    · rw [handleProcessActions_decomp client input hlen]
      unfold emittedTerminals
      rw [List.filterMap_append, List.filterMap_append]
      simp only [List.filterMap_cons, List.filterMap_nil, terminalIdOf]
      simpa using emittedTerminals_runCases_sublist client (parseCaseIds input) 0

example : parseCaseIds "123\nabc\n\n456\n12a" = ["123", "456"] := by decide
example : parseCaseIds "1\n1" = ["1", "1"] := by decide
example : parseCaseIds "" = [] := by decide
example : parseCaseIds " 42 \n" = ["42"] := by decide
